import Mathlib

/-!
Verification of the LeetSpeak Coaching Session Orchestrator
(`src/pages/Practice.jsx`, `src/utils/gemini.js`, `src/utils/elevenlabs.js`).

The orchestrator is embedded shallowly: JavaScript strings become `List Char`,
React `useState`/`useRef` cells become fields of `OrchestratorState`, and each
asynchronous handler (debounce callback, response continuation, catch/finally
block, TTS callback, speech-recognition callback) becomes a total Lean function
on that state.  Values captured by a closure at effect-scheduling time (the
React state variables `transcript`, `code`, `isListening`, `inCodingPhase`)
travel inside the request records; `useRef` cells are read live from the state.
-/

namespace LeetSpeak

/-- JavaScript strings are modelled as lists of characters. -/
abbrev Str := List Char

/-- Whitespace test used by `String.prototype.trim`. -/
def wsChar (c : Char) : Bool := c.isWhitespace

/-- JavaScript `s.trim()`: remove leading and trailing whitespace. -/
def trimStr (s : Str) : Str :=
  ((s.dropWhile wsChar).reverse.dropWhile wsChar).reverse

/-- JavaScript `s.startsWith(p)`: `startsWithCh s p = true` iff `p` comes first in `s`. -/
def startsWithCh : Str → Str → Bool
  | _, [] => true
  | [], _ :: _ => false
  | c :: cs, d :: ds => c = d && startsWithCh cs ds

/-- JavaScript `o || d` on an optional number: `0` and `undefined` are falsy. -/
def jsOrProgress : Option Nat → Nat → Nat
  | some p, d => if p = 0 then d else p
  | none, d => d

/-- JavaScript `o >= k` on an optional number: `undefined >= k` is `false`. -/
def progressAtLeast (o : Option Nat) (k : Nat) : Bool :=
  match o with
  | some p => decide (k ≤ p)
  | none => false

/-- JavaScript `Math.round((p / t) * 85)` for natural `p ≤ t`: round half away from zero. -/
def jsRound85 (p t : Nat) : Nat := (170 * p + t) / (2 * t)

/-- Coach feedback severity (`'neutral' | 'warn' | 'good'`). -/
inductive CoachLevel where
  | neutral
  | warn
  | good
deriving DecidableEq, Repr

/-- The visible coach state set by `setCoach`.  `progress` is `Option` because
a response object may carry no `progress` field (JS `undefined`). -/
structure CoachFeedback where
  level : CoachLevel
  title : Str
  message : Str
  progress : Option Nat
deriving DecidableEq, Repr

/-- A judge (Gemini) analysis response as consumed by `Practice.jsx`. -/
structure JudgeResponse where
  level : CoachLevel
  title : Str
  message : Str
  progress : Option Nat
  shouldStopMic : Bool
deriving DecidableEq, Repr

/-- A voice-channel dispatch: `analysisId` plus the closure captures.
`sawListening` and `sawCoding` are the `isListening` / `inCodingPhase` React
state values captured when the debounce effect was scheduled; `history` is the
`newHistory` array built inside the debounce callback. -/
structure VoiceRequest where
  id : Nat
  transcript : Str
  code : Str
  sawListening : Bool
  sawCoding : Bool
  history : List Str
deriving DecidableEq, Repr

/-- A code-channel dispatch (`analysisId` plus the captured `code`). -/
structure CodeRequest where
  id : Nat
  code : Str
deriving DecidableEq, Repr

/-- One test outcome inside a run output (`results[i].pass`). -/
structure TestResult where
  pass : Bool
deriving DecidableEq, Repr

/-- The result object produced by `runJavaScriptSolution` / `runCppSolution`. -/
structure RunOutput where
  ok : Bool
  results : List TestResult
deriving DecidableEq, Repr

/-- The orchestrator's mutable session state: every `useState`/`useRef` cell of
`Practice.jsx` that the coordination logic touches, plus `recognitionSet`
(whether `recognitionRef.current` holds an engine instance) and
`captureActive` (whether that engine is actually capturing audio). -/
structure OrchestratorState where
  transcript : Str
  code : Str
  conversationHistory : List Str
  isListening : Bool
  recognitionSet : Bool
  captureActive : Bool
  inCodingPhase : Bool
  coach : CoachFeedback
  lastAnalyzedTranscript : Str
  lastAnalyzedCode : Str
  lastSpoken : Str
  currentAnalysis : Option Nat
  isAnalyzing : Bool
  isPausedForTTS : Bool
  isTTSPlaying : Bool
  jsStarter : Str
  cppStarter : Str
deriving DecidableEq, Repr

/-- History trimming, `newHistory.slice(-10)`. -/
def trimHistory (l : List Str) : List Str := l.drop (l.length - 10)

/-- The `newHistory` construction inside the debounce callback
(`Practice.jsx` lines 386-407).  Both non-prefix branches of the source append
`transcript.trim()`, so they are written here exactly as in the source. -/
def extendHistory (previousTranscript transcript : Str) (currentHistory : List Str) : List Str :=
  if trimStr transcript ≠ [] ∧ transcript ≠ previousTranscript then
    if startsWithCh transcript previousTranscript then
      if trimStr (transcript.drop previousTranscript.length) ≠ [] then
        currentHistory ++ [trimStr (transcript.drop previousTranscript.length)]
      else currentHistory
    else if (trimStr previousTranscript).length < (trimStr transcript).length then
      currentHistory ++ [trimStr transcript]
    else
      currentHistory ++ [trimStr transcript]
  else currentHistory

/-- The history-extension algorithm as worded by the specification (§4.2):
if the new transcript starts with the previous one the new segment is the
trimmed suffix, otherwise the whole trimmed new transcript; an empty segment
leaves the history unchanged. -/
def extendHistorySpec (previousTranscript transcript : Str) (currentHistory : List Str) : List Str :=
  if startsWithCh transcript previousTranscript then
    if trimStr (transcript.drop previousTranscript.length) = [] then currentHistory
    else currentHistory ++ [trimStr (transcript.drop previousTranscript.length)]
  else
    if trimStr transcript = [] then currentHistory
    else currentHistory ++ [trimStr transcript]

/-- The speak gate in the response path (`Practice.jsx` lines 477-478):
`messageToSpeak && messageToSpeak !== lastSpokenRef.current &&
messageToSpeak.length > 10`. -/
def shouldSpeak (messageToSpeak lastSpoken : Str) : Bool :=
  !messageToSpeak.isEmpty && messageToSpeak ≠ lastSpoken && 10 < messageToSpeak.length

/-- The guard at the top of `speakText` (`elevenlabs.js`):
`if (!text || !text.trim()) return;` — `true` iff playback proceeds. -/
def speakTextPlays (text : Str) : Bool :=
  !(text.isEmpty || (trimStr text).isEmpty)

/-- The fixed unlock utterance spoken when the coding phase opens. -/
def unlockMessage : Str :=
  "You have the optimal approach! Start implementing. I\x27ll watch your code and help if needed.".data

/-- Source `stopListening` (`Practice.jsx` lines 756-761): stop the engine, drop the
`recognitionRef` handle, clear the listening flag. -/
def stopListening (st : OrchestratorState) : OrchestratorState :=
  { st with captureActive := false, recognitionSet := false, isListening := false }

/-- Source `startListening` (`Practice.jsx` lines 651-754): no-op while already
listening, otherwise install a fresh recognition engine and start it.  Note
that neither `isTTSPlaying` nor `isPausedForTTS` is consulted. -/
def startListening (st : OrchestratorState) : OrchestratorState :=
  if st.isListening then st
  else { st with recognitionSet := true, isListening := true, captureActive := true }

/-- Handler `recognition.onend` (`Practice.jsx` lines 722-739): the engine has stopped;
while paused for TTS do not restart (the TTS `onEnd` callback will); otherwise
auto-restart if this engine is still the installed one. -/
def recognitionOnEnd (st : OrchestratorState) : OrchestratorState :=
  let st1 := { st with captureActive := false }
  if st1.isPausedForTTS then st1
  else if st1.recognitionSet then { st1 with captureActive := true }
  else { st1 with isListening := false }

/-- Lines 477-508 of `Practice.jsx`: the speak branch of a voice response.
`sawListening` is the `isListening` value captured by the effect closure;
`wasListening = isListening && !isPausedForTTSRef.current`, and the engine is
stopped and flagged paused before the TTS starts. -/
def speakFromResponse (st : OrchestratorState) (sawListening : Bool) (messageToSpeak : Str) :
    OrchestratorState :=
  if shouldSpeak messageToSpeak st.lastSpoken then
    let st1 := { st with lastSpoken := messageToSpeak }
    let wasListening := sawListening && !st1.isPausedForTTS
    let st2 :=
      if wasListening && st1.recognitionSet then
        { st1 with isPausedForTTS := true, captureActive := false }
      else st1
    { st2 with isTTSPlaying := true }
  else st

/-- Guard of the transcript-analysis effect (`Practice.jsx` lines 366-375):
analyze only when the transcript changed and is non-blank.  The session phase
is not consulted. -/
def voiceEffectGuard (st : OrchestratorState) : Bool :=
  decide (st.transcript ≠ st.lastAnalyzedTranscript) && decide (trimStr st.transcript ≠ [])

/-- The synchronous head of the debounce callback (`Practice.jsx` lines
383-417): build `newHistory`, tag the dispatch with a fresh `analysisId`,
record it in `currentAnalysisRef`, raise `isAnalyzing`. -/
def voiceDispatch (st : OrchestratorState) (id : Nat) (sawListening sawCoding : Bool) :
    OrchestratorState × VoiceRequest :=
  ({ st with currentAnalysis := some id, isAnalyzing := true },
   { id := id
     transcript := st.transcript
     code := st.code
     sawListening := sawListening
     sawCoding := sawCoding
     history := extendHistory st.lastAnalyzedTranscript st.transcript st.conversationHistory })

/-- Unlock predicate `hasOptimalApproach` (`Practice.jsx` line 440):
`response.shouldStopMic || (response.progress !== undefined && response.progress >= 60)`. -/
def hasOptimalApproach (resp : JudgeResponse) : Bool :=
  resp.shouldStopMic || progressAtLeast resp.progress 60

/-- The resolution continuation of a voice-channel dispatch (`Practice.jsx`
lines 428-546 plus the guarded `finally`, lines 558-562), run atomically when
the judge call fulfils.  A response is applied only when its `analysisId` is
still `currentAnalysisRef.current`; the unlock block uses the captured
`inCodingPhase`/`isListening` values carried by the request. -/
def voiceResolveSuccess (st : OrchestratorState) (req : VoiceRequest) (resp : JudgeResponse) :
    OrchestratorState :=
  if st.currentAnalysis = some req.id then
    let st1 :=
      if trimStr resp.message ≠ [] then
        let applied :=
          { st with
            coach := { level := resp.level, title := resp.title,
                       message := resp.message, progress := resp.progress }
            lastAnalyzedTranscript := req.transcript
            lastAnalyzedCode := req.code
            conversationHistory := trimHistory req.history }
        let isUnlocking := hasOptimalApproach resp && !req.sawCoding
        let unlocked :=
          if isUnlocking then
            let p1 := { applied with inCodingPhase := true }
            let p2 := if req.sawListening then stopListening p1 else p1
            { p2 with
              coach := { level := resp.level, title := "Ready to Code!".data,
                         message := unlockMessage,
                         progress := some (jsOrProgress resp.progress 0) } }
          else applied
        let messageToSpeak := if isUnlocking then unlockMessage else resp.message
        speakFromResponse unlocked req.sawListening messageToSpeak
      else st
    { st1 with isAnalyzing := false, currentAnalysis := none }
  else st

/-- The rejection continuation of a voice-channel dispatch (`Practice.jsx`
lines 548-562): surface a neutral error feedback that keeps
`prevCoach.progress || 0`, then release the request in the guarded `finally`. -/
def voiceResolveError (st : OrchestratorState) (req : VoiceRequest) : OrchestratorState :=
  if st.currentAnalysis = some req.id then
    let st1 :=
      { st with
        coach := { level := CoachLevel.neutral, title := "Error".data,
                   message := "Could not analyze. Try again.".data,
                   progress := some (jsOrProgress st.coach.progress 0) } }
    { st1 with isAnalyzing := false, currentAnalysis := none }
  else st

/-- Guard of the code-monitor effect (`Practice.jsx` lines 575-595): only in
the coding phase, only when the code changed and is not a starter template. -/
def codeEffectGuard (st : OrchestratorState) : Bool :=
  st.inCodingPhase && decide (st.code ≠ st.lastAnalyzedCode) &&
    decide (st.code ≠ st.jsStarter) && decide (st.code ≠ st.cppStarter)

/-- The synchronous head of the code-monitor callback (`Practice.jsx` lines
598-600). -/
def codeDispatch (st : OrchestratorState) (id : Nat) : OrchestratorState × CodeRequest :=
  ({ st with currentAnalysis := some id, isAnalyzing := true },
   { id := id, code := st.code })

/-- The resolution continuation of a code-channel dispatch (`Practice.jsx`
lines 611-629): apply only if still the latest id and the message is present;
progress is clamped to 100 once the previous value reached 100, and a falsy
response progress falls back to the previous value. -/
def codeResolveSuccess (st : OrchestratorState) (req : CodeRequest) (resp : JudgeResponse) :
    OrchestratorState :=
  if st.currentAnalysis = some req.id then
    let st1 :=
      if resp.message ≠ [] then
        { st with
          coach := { level := resp.level, title := resp.title, message := resp.message,
                     progress := some (if progressAtLeast st.coach.progress 100 then 100
                                       else jsOrProgress resp.progress
                                              (jsOrProgress st.coach.progress 0)) }
          lastAnalyzedCode := req.code }
      else st
    { st1 with isAnalyzing := false, currentAnalysis := none }
  else st

/-- The rejection continuation of a code-channel dispatch (`Practice.jsx`
lines 622-629): only logs, then the guarded `finally` releases the request. -/
def codeResolveError (st : OrchestratorState) (req : CodeRequest) : OrchestratorState :=
  if st.currentAnalysis = some req.id then
    { st with isAnalyzing := false, currentAnalysis := none }
  else st

/-- TTS `onEnd` before the cool-down timer (`Practice.jsx` lines 515-517). -/
def ttsOnEnd (st : OrchestratorState) : OrchestratorState :=
  { st with isTTSPlaying := false }

/-- The 800ms cool-down timer body (`Practice.jsx` lines 520-537).
`wasListening`/`sawListening` are the closure values; the engine is restarted
only when the handle is still installed (a manual stop removed it), and the
stale `startListening()` fallback is a no-op. -/
def ttsCooldownFire (st : OrchestratorState) (wasListening sawListening : Bool) :
    OrchestratorState :=
  if wasListening && sawListening && !st.isTTSPlaying then
    let st1 := { st with isPausedForTTS := false }
    if st1.recognitionSet then { st1 with captureActive := true } else st1
  else { st with isPausedForTTS := false }

/-- The `speakText(...).catch` handler (`Practice.jsx` lines 539-544). -/
def ttsOnError (st : OrchestratorState) : OrchestratorState :=
  { st with isTTSPlaying := false, isPausedForTTS := false }

/-- The progress part of `run` (`Practice.jsx` lines 820-841). -/
def runUpdateCoach (st : OrchestratorState) (output : RunOutput) : OrchestratorState :=
  if output.ok && output.results.all (fun r => r.pass) then
    { st with
      coach := { level := CoachLevel.good, title := "Solution Complete!".data,
                 message := "All tests passed! Great job solving this problem.".data,
                 progress := some 100 } }
  else if 0 < output.results.length then
    let passedTests := (output.results.filter (fun r => r.pass)).length
    let totalTests := output.results.length
    let testProgress := jsRound85 passedTests totalTests
    { st with
      coach := { st.coach with
                 progress := some (max (jsOrProgress st.coach.progress 0) testProgress) } }
  else st

/-- The value returned by the `catch` branch of `analyzeWithGemini`
(`gemini.js` lines 257-265) when the judge fetch fails: a plain neutral
response carrying no `progress` field and no `shouldStopMic` flag. -/
def geminiConnectionErrorResponse : JudgeResponse :=
  { level := CoachLevel.neutral
    title := "Connection Error".data
    message := "Could not connect to AI coach. Check your internet connection.".data
    progress := none
    shouldStopMic := false }

/-- Every externally triggered action on the session state. -/
inductive Event where
  | startMic
  | stopMic
  | speechResult (full : Str)
  | recEnd
  | voiceFire (id : Nat) (sawListening sawCoding : Bool)
  | voiceSuccess (req : VoiceRequest) (resp : JudgeResponse)
  | voiceFailure (req : VoiceRequest)
  | codeFire (id : Nat)
  | codeSuccess (req : CodeRequest) (resp : JudgeResponse)
  | codeFailure (req : CodeRequest)
  | ttsEnded
  | ttsFailed
  | cooldown (wasListening sawListening : Bool)
  | codeEdit (newCode : Str)
  | runTests (output : RunOutput)
deriving DecidableEq, Repr

/-- The orchestrator step function: each event is handled by the corresponding
source handler.  `speechResult` is `recognition.onresult` (lines 670-676),
`codeEdit` the phase-gated editor `onChange` (lines 1213-1218), `runTests` the
`Run` button (disabled outside the coding phase). -/
def step (e : Event) (st : OrchestratorState) : OrchestratorState :=
  match e with
  | .startMic => startListening st
  | .stopMic => stopListening st
  | .speechResult full => { st with transcript := trimStr full }
  | .recEnd => recognitionOnEnd st
  | .voiceFire id sawL sawC =>
      if voiceEffectGuard st then (voiceDispatch st id sawL sawC).1 else st
  | .voiceSuccess req resp => voiceResolveSuccess st req resp
  | .voiceFailure req => voiceResolveError st req
  | .codeFire id => if codeEffectGuard st then (codeDispatch st id).1 else st
  | .codeSuccess req resp => codeResolveSuccess st req resp
  | .codeFailure req => codeResolveError st req
  | .ttsEnded => ttsOnEnd st
  | .ttsFailed => ttsOnError st
  | .cooldown wasL sawL => ttsCooldownFire st wasL sawL
  | .codeEdit newCode => if st.inCodingPhase then { st with code := newCode } else st
  | .runTests output => if st.inCodingPhase then runUpdateCoach st output else st

/-- Run a sequence of events. -/
def runEvents (evs : List Event) (st : OrchestratorState) : OrchestratorState :=
  evs.foldl (fun s e => step e s) st

/-- Session start (`Practice.jsx` lines 296-323 plus the initial-mount branch
of the debounce effect, which seeds `lastAnalyzedRef` with the starter code). -/
def initState (jsStarter cppStarter : Str) : OrchestratorState :=
  { transcript := []
    code := jsStarter
    conversationHistory := []
    isListening := false
    recognitionSet := false
    captureActive := false
    inCodingPhase := false
    coach := { level := CoachLevel.neutral, title := "Thinking...".data,
               message := "Share your thoughts and I\x27ll guide you!".data,
               progress := some 0 }
    lastAnalyzedTranscript := []
    lastAnalyzedCode := jsStarter
    lastSpoken := []
    currentAnalysis := none
    isAnalyzing := false
    isPausedForTTS := false
    isTTSPlaying := false
    jsStarter := jsStarter
    cppStarter := cppStarter }

/-! ### Helper lemmas about the string primitives -/

theorem trimStr_eq_nil_iff (s : Str) : trimStr s = [] ↔ ∀ c ∈ s, wsChar c := by
  unfold trimStr
  rw [List.reverse_eq_nil_iff, List.dropWhile_eq_nil_iff]
  constructor
  · intro h c hc
    rw [← List.takeWhile_append_dropWhile (p := wsChar) (l := s), List.mem_append] at hc
    rcases hc with hc | hc
    · exact List.mem_takeWhile_imp hc
    · exact h c (List.mem_reverse.mpr hc)
  · intro h x hx
    exact h x ((List.dropWhile_sublist (p := wsChar)).subset (List.mem_reverse.mp hx))

theorem trimStr_drop_eq_nil (s : Str) (n : Nat) (h : trimStr s = []) :
    trimStr (s.drop n) = [] := by
  rw [trimStr_eq_nil_iff] at h ⊢
  intro c hc
  exact h c ((List.drop_sublist n s).subset hc)

theorem startsWithCh_refl (s : Str) : startsWithCh s s = true := by
  induction s with
  | nil => rfl
  | cons c cs ih => simp [startsWithCh, ih]

/-! ### Helper lemmas about history trimming -/

theorem trimHistory_length_le (l : List Str) : (trimHistory l).length ≤ 10 := by
  unfold trimHistory
  rw [List.length_drop]
  omega

theorem trimHistory_suffix (l : List Str) : trimHistory l <:+ l :=
  ⟨l.take (l.length - 10), List.take_append_drop _ l⟩

theorem trimHistory_of_le (l : List Str) (h : l.length ≤ 10) : trimHistory l = l := by
  unfold trimHistory
  have : l.length - 10 = 0 := by omega
  rw [this, List.drop_zero]

theorem extendHistory_append (prev tr : Str) (hist : List Str) :
    extendHistory prev tr hist = hist ∨
      ∃ s, extendHistory prev tr hist = hist ++ [s] := by
  unfold extendHistory
  split_ifs
  · right; exact ⟨_, rfl⟩
  · left; rfl
  · right; exact ⟨_, rfl⟩
  · right; exact ⟨_, rfl⟩
  · left; rfl

/-! ### Projection lemmas for the step functions -/

theorem speakFromResponse_conversationHistory (st : OrchestratorState) (sawL : Bool) (m : Str) :
    (speakFromResponse st sawL m).conversationHistory = st.conversationHistory := by
  unfold speakFromResponse
  dsimp only
  split_ifs <;> rfl

theorem speakFromResponse_inCodingPhase (st : OrchestratorState) (sawL : Bool) (m : Str) :
    (speakFromResponse st sawL m).inCodingPhase = st.inCodingPhase := by
  unfold speakFromResponse
  dsimp only
  split_ifs <;> rfl

theorem speakFromResponse_coach (st : OrchestratorState) (sawL : Bool) (m : Str) :
    (speakFromResponse st sawL m).coach = st.coach := by
  unfold speakFromResponse
  dsimp only
  split_ifs <;> rfl

theorem speakFromResponse_currentAnalysis (st : OrchestratorState) (sawL : Bool) (m : Str) :
    (speakFromResponse st sawL m).currentAnalysis = st.currentAnalysis := by
  unfold speakFromResponse
  dsimp only
  split_ifs <;> rfl

/-! ### Staleness lemmas: a response whose id is no longer the latest is a no-op -/

theorem voiceResolveSuccess_stale (st : OrchestratorState) (req : VoiceRequest)
    (resp : JudgeResponse) (h : st.currentAnalysis ≠ some req.id) :
    voiceResolveSuccess st req resp = st := by
  unfold voiceResolveSuccess
  rw [if_neg h]

theorem voiceResolveError_stale (st : OrchestratorState) (req : VoiceRequest)
    (h : st.currentAnalysis ≠ some req.id) :
    voiceResolveError st req = st := by
  unfold voiceResolveError
  rw [if_neg h]

theorem codeResolveSuccess_stale (st : OrchestratorState) (req : CodeRequest)
    (resp : JudgeResponse) (h : st.currentAnalysis ≠ some req.id) :
    codeResolveSuccess st req resp = st := by
  unfold codeResolveSuccess
  rw [if_neg h]

theorem codeResolveError_stale (st : OrchestratorState) (req : CodeRequest)
    (h : st.currentAnalysis ≠ some req.id) :
    codeResolveError st req = st := by
  unfold codeResolveError
  rw [if_neg h]

/-- A resolved voice request (latest id) always clears `currentAnalysisRef`. -/
theorem voiceResolveSuccess_resolves (st : OrchestratorState) (req : VoiceRequest)
    (resp : JudgeResponse) (h : st.currentAnalysis = some req.id) :
    (voiceResolveSuccess st req resp).currentAnalysis = none := by
  unfold voiceResolveSuccess
  rw [if_pos h]

/-! ### Shape of an applied voice response -/

/-- When the id matches, the message is present, and the unlock predicate does
not fire, the applied voice response replaces the coach feedback wholesale
(`setCoach(response)`, `Practice.jsx` line 432). -/
theorem voiceResolveSuccess_applied_noUnlock (st : OrchestratorState) (req : VoiceRequest)
    (resp : JudgeResponse) (happ : st.currentAnalysis = some req.id)
    (hmsg : trimStr resp.message ≠ [])
    (hnu : (hasOptimalApproach resp && !req.sawCoding) = false) :
    (voiceResolveSuccess st req resp).coach =
      { level := resp.level, title := resp.title, message := resp.message,
        progress := resp.progress } ∧
    (voiceResolveSuccess st req resp).inCodingPhase = st.inCodingPhase ∧
    (voiceResolveSuccess st req resp).conversationHistory = trimHistory req.history := by
  unfold voiceResolveSuccess
  rw [if_pos happ]
  dsimp only
  rw [if_pos hmsg, hnu]
  simp [speakFromResponse_coach, speakFromResponse_inCodingPhase,
    speakFromResponse_conversationHistory]

/-- When the id matches, the message is present and the unlock predicate does
fire, the phase is raised and the coach shows the fixed unlock feedback. -/
theorem voiceResolveSuccess_applied_unlock (st : OrchestratorState) (req : VoiceRequest)
    (resp : JudgeResponse) (happ : st.currentAnalysis = some req.id)
    (hmsg : trimStr resp.message ≠ [])
    (hu : (hasOptimalApproach resp && !req.sawCoding) = true) :
    (voiceResolveSuccess st req resp).inCodingPhase = true ∧
    (voiceResolveSuccess st req resp).coach =
      { level := resp.level, title := "Ready to Code!".data, message := unlockMessage,
        progress := some (jsOrProgress resp.progress 0) } := by
  unfold voiceResolveSuccess
  rw [if_pos happ]
  dsimp only
  rw [if_pos hmsg, hu]
  by_cases hl : req.sawListening = true
  · simp [hl, speakFromResponse_coach, speakFromResponse_inCodingPhase, stopListening]
  · simp [hl, speakFromResponse_coach, speakFromResponse_inCodingPhase]

/-- An empty-message response with a matching id only releases the request. -/
theorem voiceResolveSuccess_noMsg (st : OrchestratorState) (req : VoiceRequest)
    (resp : JudgeResponse) (happ : st.currentAnalysis = some req.id)
    (hmsg : ¬ trimStr resp.message ≠ []) :
    voiceResolveSuccess st req resp =
      { st with isAnalyzing := false, currentAnalysis := none } := by
  unfold voiceResolveSuccess
  rw [if_pos happ]
  dsimp only
  rw [if_neg hmsg]

/-! ### Phase monotonicity -/

theorem voiceResolveSuccess_phase_mono (st : OrchestratorState) (req : VoiceRequest)
    (resp : JudgeResponse) (h : st.inCodingPhase = true) :
    (voiceResolveSuccess st req resp).inCodingPhase = true := by
  unfold voiceResolveSuccess
  dsimp only
  split_ifs <;>
    simp [speakFromResponse_inCodingPhase, stopListening, h]

theorem step_phase_mono (e : Event) (st : OrchestratorState) (h : st.inCodingPhase = true) :
    (step e st).inCodingPhase = true := by
  cases e with
  | startMic =>
      show (startListening st).inCodingPhase = true
      unfold startListening
      split_ifs <;> exact h
  | stopMic => exact h
  | speechResult full => exact h
  | recEnd =>
      show (recognitionOnEnd st).inCodingPhase = true
      unfold recognitionOnEnd
      dsimp only
      split_ifs <;> exact h
  | voiceFire id sawL sawC =>
      show (if voiceEffectGuard st then _ else st).inCodingPhase = true
      split_ifs <;> exact h
  | voiceSuccess req resp => exact voiceResolveSuccess_phase_mono st req resp h
  | voiceFailure req =>
      show (voiceResolveError st req).inCodingPhase = true
      unfold voiceResolveError
      dsimp only
      split_ifs <;> exact h
  | codeFire id =>
      show (if codeEffectGuard st then _ else st).inCodingPhase = true
      split_ifs <;> exact h
  | codeSuccess req resp =>
      show (codeResolveSuccess st req resp).inCodingPhase = true
      unfold codeResolveSuccess
      dsimp only
      split_ifs <;> exact h
  | codeFailure req =>
      show (codeResolveError st req).inCodingPhase = true
      unfold codeResolveError
      split_ifs <;> exact h
  | ttsEnded => exact h
  | ttsFailed => exact h
  | cooldown wasL sawL =>
      show (ttsCooldownFire st wasL sawL).inCodingPhase = true
      unfold ttsCooldownFire
      dsimp only
      split_ifs <;> exact h
  | codeEdit newCode =>
      show (if st.inCodingPhase then _ else st).inCodingPhase = true
      split_ifs <;> exact h
  | runTests output =>
      show (if st.inCodingPhase then runUpdateCoach st output else st).inCodingPhase = true
      unfold runUpdateCoach
      dsimp only
      split_ifs <;> exact h

theorem trimStr_nil : trimStr [] = [] := rfl

/-! ### Claim theorems -/

/-- C6: the history extension computed by the debounce callback agrees with the
specified algorithm: if the new transcript starts with the previously analyzed
one, the new segment is exactly the trimmed suffix; otherwise the whole trimmed
new transcript becomes the segment; an empty segment leaves the history
unchanged. -/
theorem extendHistory_matches_spec (prev tr : Str) (hist : List Str) :
    extendHistory prev tr hist = extendHistorySpec prev tr hist := by
  unfold extendHistory extendHistorySpec
  by_cases hg : trimStr tr ≠ [] ∧ tr ≠ prev
  · rw [if_pos hg]
    by_cases hpre : startsWithCh tr prev = true
    · by_cases hseg : trimStr (tr.drop prev.length) = []
      · simp [hpre, hseg]
      · simp [hpre, hseg]
    · simp [hpre, hg.1]
  · rw [if_neg hg]
    by_cases htr : trimStr tr = []
    · by_cases hpre : startsWithCh tr prev = true
      · simp [hpre, trimStr_drop_eq_nil tr prev.length htr]
      · simp [hpre, htr]
    · have htreq : tr = prev := by
        by_contra hne
        exact hg ⟨htr, hne⟩
      subst htreq
      simp [startsWithCh_refl, List.drop_length, trimStr_nil]

/-- C8: the speak gate fires exactly for a new, non-empty message strictly
longer than the 10-character threshold (so an empty message, a repeat of the
last spoken message, or a message of length at most 10 is never played), and
`speakText` itself refuses blank text. -/
theorem speak_deduplication_gate :
    (∀ messageToSpeak lastSpoken : Str,
        shouldSpeak messageToSpeak lastSpoken = true ↔
          messageToSpeak ≠ [] ∧ messageToSpeak ≠ lastSpoken ∧ 10 < messageToSpeak.length) ∧
    (∀ text : Str, speakTextPlays text = !(trimStr text).isEmpty) := by
  constructor
  · intro m last
    unfold shouldSpeak
    cases m with
    | nil => simp
    | cons c cs => simp [and_assoc]
  · intro text
    cases text with
    | nil => rfl
    | cons c cs => rfl

/-- Every step either leaves the stored history unchanged or stores a
`slice(-10)`-trimmed list. -/
theorem step_history (e : Event) (st : OrchestratorState) :
    (step e st).conversationHistory = st.conversationHistory ∨
      (step e st).conversationHistory.length ≤ 10 := by
  cases e with
  | startMic =>
      left
      show (startListening st).conversationHistory = _
      unfold startListening
      split_ifs <;> rfl
  | stopMic => left; rfl
  | speechResult full => left; rfl
  | recEnd =>
      left
      show (recognitionOnEnd st).conversationHistory = _
      unfold recognitionOnEnd
      dsimp only
      split_ifs <;> rfl
  | voiceFire id sawL sawC =>
      left
      show (if voiceEffectGuard st then _ else st).conversationHistory = _
      split_ifs <;> rfl
  | voiceSuccess req resp =>
      by_cases happ : st.currentAnalysis = some req.id
      · by_cases hmsg : trimStr resp.message ≠ []
        · right
          show (voiceResolveSuccess st req resp).conversationHistory.length ≤ 10
          unfold voiceResolveSuccess
          rw [if_pos happ]
          dsimp only
          rw [if_pos hmsg]
          have h1 : ∀ (s : OrchestratorState) (sl : Bool) (m : Str),
              s.conversationHistory = trimHistory req.history →
              (speakFromResponse s sl m).conversationHistory.length ≤ 10 := by
            intro s sl m hs
            rw [speakFromResponse_conversationHistory, hs]
            exact trimHistory_length_le _
          split_ifs <;> apply h1 <;> simp [stopListening]
        · left
          show (voiceResolveSuccess st req resp).conversationHistory = _
          rw [voiceResolveSuccess_noMsg st req resp happ hmsg]
      · left
        show (voiceResolveSuccess st req resp).conversationHistory = _
        rw [voiceResolveSuccess_stale st req resp happ]
  | voiceFailure req =>
      left
      show (voiceResolveError st req).conversationHistory = _
      unfold voiceResolveError
      split_ifs <;> rfl
  | codeFire id =>
      left
      show (if codeEffectGuard st then _ else st).conversationHistory = _
      split_ifs <;> rfl
  | codeSuccess req resp =>
      left
      show (codeResolveSuccess st req resp).conversationHistory = _
      unfold codeResolveSuccess
      dsimp only
      split_ifs <;> rfl
  | codeFailure req =>
      left
      show (codeResolveError st req).conversationHistory = _
      unfold codeResolveError
      split_ifs <;> rfl
  | ttsEnded => left; rfl
  | ttsFailed => left; rfl
  | cooldown wasL sawL =>
      left
      show (ttsCooldownFire st wasL sawL).conversationHistory = _
      unfold ttsCooldownFire
      dsimp only
      split_ifs <;> rfl
  | codeEdit newCode =>
      left
      show (if st.inCodingPhase then _ else st).conversationHistory = _
      split_ifs <;> rfl
  | runTests output =>
      left
      show (if st.inCodingPhase then runUpdateCoach st output else st).conversationHistory = _
      unfold runUpdateCoach
      dsimp only
      split_ifs <;> rfl

theorem runEvents_history_le (evs : List Event) (st : OrchestratorState)
    (h : st.conversationHistory.length ≤ 10) :
    (runEvents evs st).conversationHistory.length ≤ 10 := by
  induction evs generalizing st with
  | nil => exact h
  | cons e evs ih =>
      have hstep : (step e st).conversationHistory.length ≤ 10 := by
        rcases step_history e st with heq | hle
        · rw [heq]; exact h
        · exact hle
      exact ih (step e st) hstep

/-- C5: over every event sequence the stored conversation history holds at most
10 turns; trimming keeps a suffix of the appended list (insertion order
preserved, oldest discarded) and is the identity when no overflow occurs, and
the debounce callback only ever appends at most one new segment. -/
theorem conversation_history_bounded_fifo :
    (∀ (evs : List Event) (js cpp : Str),
        (runEvents evs (initState js cpp)).conversationHistory.length ≤ 10) ∧
    (∀ l : List Str, (trimHistory l).length ≤ 10 ∧ trimHistory l <:+ l) ∧
    (∀ l : List Str, l.length ≤ 10 → trimHistory l = l) ∧
    (∀ (prev tr : Str) (hist : List Str),
        extendHistory prev tr hist = hist ∨
          ∃ s, extendHistory prev tr hist = hist ++ [s]) := by
  refine ⟨?_, ?_, ?_, ?_⟩
  · intro evs js cpp
    exact runEvents_history_le evs (initState js cpp) (by simp [initState])
  · intro l
    exact ⟨trimHistory_length_le l, trimHistory_suffix l⟩
  · intro l h
    exact trimHistory_of_le l h
  · intro prev tr hist
    exact extendHistory_append prev tr hist

/-- Closed witness for C5: a concrete two-event run keeps the bound, a concrete
11-element list is trimmed to its 10-element suffix, and a concrete short list
is left untouched. -/
theorem conversation_history_bounded_fifo_witness :
    (runEvents [Event.startMic, Event.speechResult "use a set".data]
        (initState "js".data "cpp".data)).conversationHistory.length ≤ 10 ∧
    trimHistory ["a".data, "b".data] = ["a".data, "b".data] := by
  constructor
  · exact conversation_history_bounded_fifo.1
      [Event.startMic, Event.speechResult "use a set".data] "js".data "cpp".data
  · exact conversation_history_bounded_fifo.2.2.1 ["a".data, "b".data] (by decide)

/-- C1: a response (success or failure, on either channel) whose `analysisId`
no longer equals `currentAnalysisRef.current` changes nothing — not the coach
feedback, not the history, not the phase; and in the overlapping-pair scenario
(R1 dispatched, R2 dispatched, R2 resolved first), R1's late response is
dropped whole. -/
theorem analysis_response_staleness_guard :
    (∀ (st : OrchestratorState) (req : VoiceRequest) (resp : JudgeResponse),
        st.currentAnalysis ≠ some req.id → voiceResolveSuccess st req resp = st) ∧
    (∀ (st : OrchestratorState) (req : VoiceRequest),
        st.currentAnalysis ≠ some req.id → voiceResolveError st req = st) ∧
    (∀ (st : OrchestratorState) (req : CodeRequest) (resp : JudgeResponse),
        st.currentAnalysis ≠ some req.id → codeResolveSuccess st req resp = st) ∧
    (∀ (st : OrchestratorState) (req : CodeRequest),
        st.currentAnalysis ≠ some req.id → codeResolveError st req = st) ∧
    (∀ (st : OrchestratorState) (id1 id2 : Nat) (sL1 sC1 sL2 sC2 : Bool)
        (resp1 resp2 : JudgeResponse),
        voiceResolveSuccess
            (voiceResolveSuccess (voiceDispatch (voiceDispatch st id1 sL1 sC1).1 id2 sL2 sC2).1
              (voiceDispatch (voiceDispatch st id1 sL1 sC1).1 id2 sL2 sC2).2 resp2)
            (voiceDispatch st id1 sL1 sC1).2 resp1 =
          voiceResolveSuccess (voiceDispatch (voiceDispatch st id1 sL1 sC1).1 id2 sL2 sC2).1
            (voiceDispatch (voiceDispatch st id1 sL1 sC1).1 id2 sL2 sC2).2 resp2 ∧
        voiceResolveError
            (voiceResolveSuccess (voiceDispatch (voiceDispatch st id1 sL1 sC1).1 id2 sL2 sC2).1
              (voiceDispatch (voiceDispatch st id1 sL1 sC1).1 id2 sL2 sC2).2 resp2)
            (voiceDispatch st id1 sL1 sC1).2 =
          voiceResolveSuccess (voiceDispatch (voiceDispatch st id1 sL1 sC1).1 id2 sL2 sC2).1
            (voiceDispatch (voiceDispatch st id1 sL1 sC1).1 id2 sL2 sC2).2 resp2) := by
  refine ⟨voiceResolveSuccess_stale, voiceResolveError_stale,
    codeResolveSuccess_stale, codeResolveError_stale, ?_⟩
  intro st id1 id2 sL1 sC1 sL2 sC2 resp1 resp2
  have h2 : ((voiceDispatch (voiceDispatch st id1 sL1 sC1).1 id2 sL2 sC2).1).currentAnalysis =
      some ((voiceDispatch (voiceDispatch st id1 sL1 sC1).1 id2 sL2 sC2).2).id := rfl
  have hnone := voiceResolveSuccess_resolves _ _ resp2 h2
  have hne : (voiceResolveSuccess (voiceDispatch (voiceDispatch st id1 sL1 sC1).1 id2 sL2 sC2).1
      (voiceDispatch (voiceDispatch st id1 sL1 sC1).1 id2 sL2 sC2).2 resp2).currentAnalysis ≠
      some ((voiceDispatch st id1 sL1 sC1).2).id := by
    rw [hnone]
    exact fun h => Option.noConfusion h
  exact ⟨voiceResolveSuccess_stale _ _ resp1 hne, voiceResolveError_stale _ _ hne⟩

/-- Closed witness for C1: a concrete stale voice response (latest id `2`,
response tagged `1`) leaves the session state untouched. -/
theorem analysis_response_staleness_guard_witness :
    voiceResolveSuccess
        { initState "js".data "cpp".data with currentAnalysis := some 2 }
        { id := 1, transcript := [], code := [], sawListening := false,
          sawCoding := false, history := [] }
        { level := CoachLevel.good, title := "On Track".data,
          message := "Great use of a set for this problem".data,
          progress := some 80, shouldStopMic := false } =
      { initState "js".data "cpp".data with currentAnalysis := some 2 } := by
  exact analysis_response_staleness_guard.1
    { initState "js".data "cpp".data with currentAnalysis := some 2 }
    { id := 1, transcript := [], code := [], sawListening := false,
      sawCoding := false, history := [] }
    { level := CoachLevel.good, title := "On Track".data,
      message := "Great use of a set for this problem".data,
      progress := some 80, shouldStopMic := false }
    (by decide)

/-- Applied-response phase equation: the phase after an applied voice response
is the old phase, raised exactly when the unlock predicate fires against the
captured phase value. -/
theorem voiceResolveSuccess_phase_eq (st : OrchestratorState) (req : VoiceRequest)
    (resp : JudgeResponse) (happ : st.currentAnalysis = some req.id)
    (hmsg : trimStr resp.message ≠ []) :
    (voiceResolveSuccess st req resp).inCodingPhase =
      ((hasOptimalApproach resp && !req.sawCoding) || st.inCodingPhase) := by
  by_cases hu : (hasOptimalApproach resp && !req.sawCoding) = true
  · rw [hu, Bool.true_or]
    exact (voiceResolveSuccess_applied_unlock st req resp happ hmsg hu).1
  · have hf : (hasOptimalApproach resp && !req.sawCoding) = false := by
      cases h : (hasOptimalApproach resp && !req.sawCoding)
      · rfl
      · exact absurd h hu
    rw [hf, Bool.false_or]
    exact (voiceResolveSuccess_applied_noUnlock st req resp happ hmsg hf).2.1

/-- C4: the session starts in the Voice phase; an applied voice response flips
the phase to Coding exactly when it is the latest request, carries a real
message, and satisfies the unlock predicate (progress ≥ 60 or the explicit
optimal-approach flag) while the phase is still Voice; and no event ever
lowers the phase back to Voice (so the transition fires at most once).  The
hypothesis ties the captured phase value to the live one, which holds on every
reachable trace because the phase is monotone. -/
theorem phase_voice_to_coding_one_way :
    (∀ js cpp : Str, (initState js cpp).inCodingPhase = false) ∧
    (∀ (st : OrchestratorState) (req : VoiceRequest) (resp : JudgeResponse),
        (req.sawCoding = true → st.inCodingPhase = true) →
        ((voiceResolveSuccess st req resp).inCodingPhase = true ∧ st.inCodingPhase = false ↔
          st.currentAnalysis = some req.id ∧ trimStr resp.message ≠ [] ∧
            hasOptimalApproach resp = true ∧ st.inCodingPhase = false)) ∧
    (∀ (e : Event) (st : OrchestratorState),
        st.inCodingPhase = true → (step e st).inCodingPhase = true) := by
  refine ⟨fun js cpp => rfl, ?_, step_phase_mono⟩
  intro st req resp hcap
  constructor
  · rintro ⟨hpost, hpre⟩
    by_cases happ : st.currentAnalysis = some req.id
    · by_cases hmsg : trimStr resp.message ≠ []
      · refine ⟨happ, hmsg, ?_, hpre⟩
        have heq := voiceResolveSuccess_phase_eq st req resp happ hmsg
        rw [hpost, hpre, Bool.or_false] at heq
        have hand := heq.symm
        rw [Bool.and_eq_true] at hand
        exact hand.1
      · exfalso
        rw [voiceResolveSuccess_noMsg st req resp happ hmsg] at hpost
        have h' : st.inCodingPhase = true := hpost
        rw [hpre] at h'
        exact Bool.noConfusion h'
    · exfalso
      rw [voiceResolveSuccess_stale st req resp happ, hpre] at hpost
      exact Bool.noConfusion hpost
  · rintro ⟨happ, hmsg, hopt, hpre⟩
    refine ⟨?_, hpre⟩
    have hsc : req.sawCoding = false := by
      cases hsc' : req.sawCoding
      · rfl
      · have h := hcap hsc'
        rw [hpre] at h
        exact Bool.noConfusion h
    rw [voiceResolveSuccess_phase_eq st req resp happ hmsg, hopt, hsc, hpre]
    rfl

/-- Closed witness for C4: a concrete latest-request response with progress 70
unlocks from a concrete Voice-phase state. -/
theorem phase_voice_to_coding_one_way_witness :
    (voiceResolveSuccess
        { initState "js".data "cpp".data with currentAnalysis := some 4 }
        { id := 4, transcript := "i will use a set".data, code := [],
          sawListening := false, sawCoding := false, history := [] }
        { level := CoachLevel.good, title := "Ready".data,
          message := "Great plan, go ahead and implement it".data,
          progress := some 70, shouldStopMic := false }).inCodingPhase = true ∧
    ({ initState "js".data "cpp".data with
        currentAnalysis := some 4 } : OrchestratorState).inCodingPhase = false := by
  have h := (phase_voice_to_coding_one_way.2.1
    { initState "js".data "cpp".data with currentAnalysis := some 4 }
    { id := 4, transcript := "i will use a set".data, code := [],
      sawListening := false, sawCoding := false, history := [] }
    { level := CoachLevel.good, title := "Ready".data,
      message := "Great plan, go ahead and implement it".data,
      progress := some 70, shouldStopMic := false }
    (fun hx => Bool.noConfusion hx)).mpr ⟨rfl, by decide, by decide, rfl⟩
  exact h

theorem jsOrProgress_some_zero (x : Nat) : jsOrProgress (some x) 0 = x := by
  show (if x = 0 then 0 else x) = x
  split_ifs with h
  · omega
  · rfl

/-- A non-perfect run is capped: with at least one result,
`Math.round(passed / total * 85)` never exceeds 85. -/
theorem jsRound85_le_85 (l : List TestResult) (hl : l ≠ []) :
    jsRound85 (l.filter (fun r => r.pass)).length l.length ≤ 85 := by
  have ht : 1 ≤ l.length := by
    cases l with
    | nil => exact absurd rfl hl
    | cons a as => simp
  have hp : (l.filter (fun r => r.pass)).length ≤ l.length := List.length_filter_le _ _
  unfold jsRound85
  have hlt : 170 * (l.filter (fun r => r.pass)).length + l.length <
      2 * l.length * 86 := by omega
  have := Nat.div_lt_of_lt_mul hlt
  omega

/-- C10: a completed test run never lowers the displayed progress; a fully
passing run sets progress to 100 with a good-level completion feedback; any
other run with results takes the maximum of the previous progress and
`round(passed / total * 85)`, so a run with a failing test can neither push
progress beyond 85 nor make it reach 100 unless it already was 100. -/
theorem run_tests_progress_update (st : OrchestratorState) (output : RunOutput)
    (hprev : jsOrProgress st.coach.progress 0 ≤ 100) :
    ((output.ok && output.results.all (fun r => r.pass)) = true →
        (runUpdateCoach st output).coach.progress = some 100 ∧
          (runUpdateCoach st output).coach.level = CoachLevel.good) ∧
    ((output.ok && output.results.all (fun r => r.pass)) = false →
      output.results ≠ [] →
        (runUpdateCoach st output).coach.progress =
          some (max (jsOrProgress st.coach.progress 0)
            (jsRound85 (output.results.filter (fun r => r.pass)).length
              output.results.length))) ∧
    jsOrProgress st.coach.progress 0 ≤
      jsOrProgress (runUpdateCoach st output).coach.progress 0 ∧
    ((∃ r ∈ output.results, r.pass = false) →
        jsRound85 (output.results.filter (fun r => r.pass)).length
            output.results.length ≤ 85 ∧
        ((runUpdateCoach st output).coach.progress = some 100 →
          jsOrProgress st.coach.progress 0 = 100)) := by
  by_cases h1 : (output.ok && output.results.all (fun r => r.pass)) = true
  · have hbr : (runUpdateCoach st output).coach.progress = some 100 ∧
        (runUpdateCoach st output).coach.level = CoachLevel.good := by
      unfold runUpdateCoach
      rw [if_pos h1]
      exact ⟨rfl, rfl⟩
    refine ⟨fun _ => hbr, fun hc => absurd h1 (by simp [hc]), ?_, ?_⟩
    · rw [hbr.1, jsOrProgress_some_zero]
      exact hprev
    · rintro ⟨r, hr, hrp⟩
      rw [Bool.and_eq_true] at h1
      have := List.all_eq_true.mp h1.2 r hr
      rw [hrp] at this
      exact absurd this (by simp)
  · have h1f : (output.ok && output.results.all (fun r => r.pass)) = false := by
      cases h : (output.ok && output.results.all (fun r => r.pass))
      · rfl
      · exact absurd h h1
    by_cases h2 : output.results = []
    · have hbr : runUpdateCoach st output = st := by
        unfold runUpdateCoach
        rw [if_neg h1, if_neg (by simp [h2])]
      refine ⟨fun hc => absurd hc h1, fun _ hne => absurd h2 hne, ?_, ?_⟩
      · rw [hbr]
      · rintro ⟨r, hr, _⟩
        rw [h2] at hr
        exact absurd hr (List.not_mem_nil r)
    · have hlen : 0 < output.results.length := List.length_pos.mpr h2
      have hbr : (runUpdateCoach st output).coach.progress =
          some (max (jsOrProgress st.coach.progress 0)
            (jsRound85 (output.results.filter (fun r => r.pass)).length
              output.results.length)) := by
        unfold runUpdateCoach
        rw [if_neg h1, if_pos hlen]
      refine ⟨fun hc => absurd hc h1, fun _ _ => hbr, ?_, ?_⟩
      · rw [hbr, jsOrProgress_some_zero]
        exact Nat.le_max_left _ _
      · intro _
        refine ⟨jsRound85_le_85 output.results h2, ?_⟩
        intro h100
        rw [hbr] at h100
        have hmax := Option.some.inj h100
        have hcap := jsRound85_le_85 output.results h2
        omega

/-- Closed witness for C10: a concrete run with one failing test out of two
moves a previous progress of 40 to `max 40 43 = 43`. -/
theorem run_tests_progress_update_witness :
    (runUpdateCoach
        { initState "js".data "cpp".data with
            coach := { level := CoachLevel.neutral, title := [], message := [],
                       progress := some 40 } }
        { ok := false, results := [{ pass := true }, { pass := false }] }).coach.progress =
      some 43 := by
  have h := (run_tests_progress_update
    { initState "js".data "cpp".data with
        coach := { level := CoachLevel.neutral, title := [], message := [],
                   progress := some 40 } }
    { ok := false, results := [{ pass := true }, { pass := false }] }
    (by decide)).2.1 (by decide) (by decide)
  rw [h]
  decide

/-! ### Concrete states for the corrected claims -/

/-- A baseline session over concrete starter code. -/
def baseState : OrchestratorState := initState "jsStarterCode".data "cppStarterCode".data

/-- A coding-phase session whose transcript has changed (the mic was restarted
via the always-enabled Start-mic button). -/
def codingPhaseState : OrchestratorState :=
  { baseState with
    inCodingPhase := true
    isListening := true
    recognitionSet := true
    captureActive := true
    transcript := "maybe a nested loop could work".data }

/-- A non-unlocking judge response. -/
def lateVoiceResponse : JudgeResponse :=
  { level := CoachLevel.warn, title := "Consider This".data,
    message := "Think about the complexity of nested loops".data,
    progress := some 40, shouldStopMic := false }

/-- C2 counterexample: in the Coding phase the transcript-analysis guard still
fires (it never consults the phase), the dispatch is recorded, and the
resolved Voice response overwrites the coach feedback — the Voice channel is
not deactivated by the phase transition. -/
theorem voice_channel_active_in_coding_cex :
    codingPhaseState.inCodingPhase = true ∧
    voiceEffectGuard codingPhaseState = true ∧
    (step (Event.voiceFire 5 true true) codingPhaseState).currentAnalysis = some 5 ∧
    (step (Event.voiceSuccess (voiceDispatch codingPhaseState 5 true true).2 lateVoiceResponse)
        (step (Event.voiceFire 5 true true) codingPhaseState)).coach.message =
      lateVoiceResponse.message ∧
    lateVoiceResponse.message ≠ codingPhaseState.coach.message := by
  exact ⟨rfl, by decide, by decide, by decide, by decide⟩

/-- C2 (amended): the transcript-analysis trigger ignores the phase, and the
Start-mic action still activates capture in the Coding phase, so a Voice
dispatch can occur after the transition; an applied late Voice response whose
captured phase is already Coding updates the coach feedback but can never
re-fire the unlock block or change the phase. -/
theorem voice_channel_not_deactivated_in_coding :
    (∀ (st : OrchestratorState) (b : Bool),
        voiceEffectGuard { st with inCodingPhase := b } = voiceEffectGuard st) ∧
    (∀ st : OrchestratorState, st.isListening = false →
        (startListening st).captureActive = true ∧
          (startListening st).inCodingPhase = st.inCodingPhase) ∧
    (∀ (st : OrchestratorState) (req : VoiceRequest) (resp : JudgeResponse),
        st.currentAnalysis = some req.id → trimStr resp.message ≠ [] →
        req.sawCoding = true →
        (voiceResolveSuccess st req resp).coach.message = resp.message ∧
          (voiceResolveSuccess st req resp).inCodingPhase = st.inCodingPhase) := by
  refine ⟨fun st b => rfl, ?_, ?_⟩
  · intro st h
    unfold startListening
    rw [if_neg (by simp [h])]
    exact ⟨rfl, rfl⟩
  · intro st req resp happ hmsg hsc
    have hnu : (hasOptimalApproach resp && !req.sawCoding) = false := by
      rw [hsc]
      simp
    have h := voiceResolveSuccess_applied_noUnlock st req resp happ hmsg hnu
    exact ⟨by rw [h.1], h.2.1⟩

/-- Closed witness for the amended C2: a concrete applied late Voice response
in the Coding phase replaces the coach message and leaves the phase Coding. -/
theorem voice_channel_not_deactivated_in_coding_witness :
    (voiceResolveSuccess { codingPhaseState with currentAnalysis := some 9 }
        { id := 9, transcript := [], code := [], sawListening := false,
          sawCoding := true, history := [] } lateVoiceResponse).coach.message =
      lateVoiceResponse.message ∧
    (startListening { baseState with inCodingPhase := true }).captureActive = true := by
  constructor
  · exact (voice_channel_not_deactivated_in_coding.2.2
      { codingPhaseState with currentAnalysis := some 9 }
      { id := 9, transcript := [], code := [], sawListening := false,
        sawCoding := true, history := [] } lateVoiceResponse rfl (by decide) rfl).1
  · exact (voice_channel_not_deactivated_in_coding.2.1
      { baseState with inCodingPhase := true } rfl).1

/-- A session whose displayed progress already reached 100. -/
def stickyState : OrchestratorState :=
  { baseState with
    inCodingPhase := true
    currentAnalysis := some 7
    coach := { level := CoachLevel.good, title := "Solution Complete!".data,
               message := "All tests passed! Great job solving this problem.".data,
               progress := some 100 } }

/-- A later response carrying lower progress. -/
def regressingResponse : JudgeResponse :=
  { level := CoachLevel.neutral, title := "Keep going".data,
    message := "Now handle the duplicate check inside your loop".data,
    progress := some 30, shouldStopMic := false }

/-- The voice request matching `stickyState`'s in-flight id. -/
def stickyRequest : VoiceRequest :=
  { id := 7, transcript := "let me rethink this".data, code := [],
    sawListening := false, sawCoding := true, history := [] }

/-- C3 counterexample: with displayed progress already 100, an applied
voice-channel response carrying progress 30 lowers the displayed progress to
30 — `setCoach(response)` on the voice channel has no sticky-100 clamp. -/
theorem voice_response_lowers_progress_cex :
    stickyState.coach.progress = some 100 ∧
    (voiceResolveSuccess stickyState stickyRequest regressingResponse).coach.progress =
      some 30 := by
  exact ⟨rfl, by decide⟩

/-- C3 (amended): sticky-100 holds on the code channel and for test runs —
once the displayed progress is at least 100, an applied code-channel response
or a run update cannot lower it below 100 — but an applied voice-channel
response replaces the progress wholesale with the response's value. -/
theorem progress_sticky_code_channel_only :
    (∀ (st : OrchestratorState) (req : CodeRequest) (resp : JudgeResponse),
        progressAtLeast st.coach.progress 100 = true →
        progressAtLeast (codeResolveSuccess st req resp).coach.progress 100 = true) ∧
    (∀ (st : OrchestratorState) (output : RunOutput),
        progressAtLeast st.coach.progress 100 = true →
        progressAtLeast (runUpdateCoach st output).coach.progress 100 = true) ∧
    (∀ (st : OrchestratorState) (req : VoiceRequest) (resp : JudgeResponse),
        st.currentAnalysis = some req.id → trimStr resp.message ≠ [] →
        req.sawCoding = true →
        (voiceResolveSuccess st req resp).coach.progress = resp.progress) := by
  refine ⟨?_, ?_, ?_⟩
  · intro st req resp h
    by_cases happ : st.currentAnalysis = some req.id
    · by_cases hmsg : resp.message ≠ []
      · have hval : (codeResolveSuccess st req resp).coach.progress = some 100 := by
          unfold codeResolveSuccess
          rw [if_pos happ]
          dsimp only
          rw [if_pos hmsg, h]
          rfl
        rw [hval]
        decide
      · have hval : (codeResolveSuccess st req resp).coach = st.coach := by
          unfold codeResolveSuccess
          rw [if_pos happ]
          dsimp only
          rw [if_neg hmsg]
        rw [hval]
        exact h
    · rw [codeResolveSuccess_stale st req resp happ]
      exact h
  · intro st output h
    have hle : 100 ≤ jsOrProgress st.coach.progress 0 := by
      cases ho : st.coach.progress with
      | none => rw [ho] at h; exact absurd h (by simp [progressAtLeast])
      | some p =>
          rw [ho] at h
          have hp : 100 ≤ p := by simpa [progressAtLeast] using h
          rw [jsOrProgress_some_zero]
          exact hp
    unfold runUpdateCoach
    split_ifs with h1 h2
    · rfl
    · have : 100 ≤ max (jsOrProgress st.coach.progress 0)
          (jsRound85 (output.results.filter (fun r => r.pass)).length
            output.results.length) :=
        le_trans hle (Nat.le_max_left _ _)
      simpa [progressAtLeast] using this
    · exact h
  · intro st req resp happ hmsg hsc
    have hnu : (hasOptimalApproach resp && !req.sawCoding) = false := by
      rw [hsc]
      simp
    have h := voiceResolveSuccess_applied_noUnlock st req resp happ hmsg hnu
    rw [h.1]

/-- Closed witness for the amended C3: a concrete code-channel response with
progress 30 leaves a displayed 100 at 100. -/
theorem progress_sticky_code_channel_only_witness :
    progressAtLeast (codeResolveSuccess
        { stickyState with currentAnalysis := some 11 }
        { id := 11, code := "function containsDuplicate(nums) \x7b return true \x7d".data }
        regressingResponse).coach.progress 100 = true := by
  exact progress_sticky_code_channel_only.1
    { stickyState with currentAnalysis := some 11 }
    { id := 11, code := "function containsDuplicate(nums) \x7b return true \x7d".data }
    regressingResponse (by decide)

/-- A session in which spoken playback is active and the mic is off. -/
def playbackState : OrchestratorState := { baseState with isTTSPlaying := true }

/-- C7 counterexample: while playback is active, the manual Start-mic action
(which consults neither `isTTSPlaying` nor `isPausedForTTS`) activates speech
capture, refuting "whenever spoken playback is active, capture is inactive". -/
theorem capture_active_during_playback_cex :
    playbackState.isTTSPlaying = true ∧
    playbackState.captureActive = false ∧
    (step Event.startMic playbackState).captureActive = true ∧
    (step Event.startMic playbackState).isTTSPlaying = true := by
  exact ⟨rfl, rfl, by decide, by decide⟩

/-- C7 (amended): the response path stops capture and sets the paused flag
before starting playback, the capture auto-restart refuses to restart while
the paused flag is set (capture can be active during playback only through
the manual start action), and after the 800ms cool-down the paused flag is
cleared and capture is restarted iff it was active at pause time, the
recognition handle is still installed (a manual stop removes it, so capture
is no longer desired), and no new playback has started meanwhile. -/
theorem playback_capture_coordination :
    (∀ (st : OrchestratorState) (m : Str),
        st.isPausedForTTS = false → st.recognitionSet = true →
        shouldSpeak m st.lastSpoken = true →
        (speakFromResponse st true m).captureActive = false ∧
          (speakFromResponse st true m).isPausedForTTS = true ∧
          (speakFromResponse st true m).isTTSPlaying = true) ∧
    (∀ st : OrchestratorState, st.isPausedForTTS = true →
        (recognitionOnEnd st).captureActive = false) ∧
    (∀ (st : OrchestratorState) (wasL sawL : Bool),
        st.captureActive = false →
        (ttsCooldownFire st wasL sawL).isPausedForTTS = false ∧
          ((ttsCooldownFire st wasL sawL).captureActive = true ↔
            wasL = true ∧ sawL = true ∧ st.isTTSPlaying = false ∧
              st.recognitionSet = true)) := by
  refine ⟨?_, ?_, ?_⟩
  · intro st m hp hr hs
    unfold speakFromResponse
    rw [if_pos hs]
    dsimp only
    rw [hp, hr]
    exact ⟨rfl, rfl, rfl⟩
  · intro st h
    unfold recognitionOnEnd
    dsimp only
    rw [if_pos h]
  · intro st wasL sawL hcap
    unfold ttsCooldownFire
    dsimp only
    by_cases hc : (wasL && sawL && !st.isTTSPlaying) = true
    · rw [if_pos hc]
      rcases Bool.and_eq_true_iff.mp hc with ⟨hws, htts⟩
      rcases Bool.and_eq_true_iff.mp hws with ⟨hw, hsw⟩
      have htts' : st.isTTSPlaying = false := by
        cases h : st.isTTSPlaying
        · rfl
        · rw [h] at htts; exact Bool.noConfusion htts
      by_cases hr : st.recognitionSet = true
      · rw [if_pos hr]
        refine ⟨rfl, ?_⟩
        simp [hw, hsw, hr, htts']
      · rw [if_neg hr]
        refine ⟨rfl, ?_⟩
        constructor
        · intro hca
          have h' : st.captureActive = true := hca
          rw [hcap] at h'
          exact Bool.noConfusion h'
        · rintro ⟨-, -, -, hr'⟩
          exact absurd hr' hr
    · rw [if_neg hc]
      refine ⟨rfl, ?_⟩
      constructor
      · intro hca
        have h' : st.captureActive = true := hca
        rw [hcap] at h'
        exact Bool.noConfusion h'
      · rintro ⟨hw, hsw, htts, -⟩
        exfalso
        apply hc
        rw [hw, hsw, htts]
        rfl

/-- Closed witness for the amended C7: a concrete speak pauses active capture,
and a concrete clean cool-down restarts it. -/
theorem playback_capture_coordination_witness :
    (speakFromResponse
        { baseState with isListening := true, recognitionSet := true, captureActive := true }
        true "Nice approach, keep explaining it".data).captureActive = false ∧
    (ttsCooldownFire { baseState with isPausedForTTS := true, recognitionSet := true }
        true true).captureActive = true := by
  constructor
  · exact (playback_capture_coordination.1
      { baseState with isListening := true, recognitionSet := true, captureActive := true }
      "Nice approach, keep explaining it".data rfl rfl (by decide)).1
  · exact ((playback_capture_coordination.2.2
      { baseState with isPausedForTTS := true, recognitionSet := true }
      true true rfl).2).mpr ⟨rfl, rfl, rfl, rfl⟩

/-- A session with displayed progress 50 and an in-flight request. -/
def progressedState : OrchestratorState :=
  { baseState with
    coach := { level := CoachLevel.good, title := "On Track".data,
               message := "Good direction so far today".data, progress := some 50 }
    currentAnalysis := some 3 }

/-- The voice request matching `progressedState`'s in-flight id. -/
def failedRequest : VoiceRequest :=
  { id := 3, transcript := "i think sorting might help".data, code := [],
    sawListening := false, sawCoding := false, history := [] }

/-- C9 counterexample: a judge fetch failure is caught inside
`analyzeWithGemini` and returned as a normal neutral response with no
`progress` field; applying it on the voice channel overwrites the coach, so a
previously displayed progress of 50 becomes undefined (displayed as 0) — it is
not preserved. -/
theorem judge_failure_resets_progress_cex :
    progressedState.coach.progress = some 50 ∧
    (voiceResolveSuccess progressedState failedRequest
        geminiConnectionErrorResponse).coach.progress = none ∧
    jsOrProgress (voiceResolveSuccess progressedState failedRequest
        geminiConnectionErrorResponse).coach.progress 0 = 0 := by
  exact ⟨rfl, by decide, by decide⟩

/-- C9 (amended): a judge-call failure always surfaces as a Neutral feedback
with an explanatory message, never retries, and still resolves the request
(the latest in-flight id is cleared, a stale one is ignored); the previously
displayed progress is preserved on the promise-rejection path (the dispatch's
catch handler), while the connection failure caught inside the judge wrapper
is applied as an ordinary response without a progress value, which on the
voice channel overwrites the displayed progress. -/
theorem judge_failure_handling :
    (geminiConnectionErrorResponse.level = CoachLevel.neutral ∧
      trimStr geminiConnectionErrorResponse.message ≠ [] ∧
      geminiConnectionErrorResponse.progress = none) ∧
    (∀ (st : OrchestratorState) (req : VoiceRequest),
        st.currentAnalysis = some req.id →
        (voiceResolveError st req).coach.level = CoachLevel.neutral ∧
          (voiceResolveError st req).coach.message ≠ [] ∧
          (voiceResolveError st req).coach.progress =
            some (jsOrProgress st.coach.progress 0) ∧
          (voiceResolveError st req).currentAnalysis = none ∧
          (voiceResolveError st req).isAnalyzing = false) ∧
    (∀ (st : OrchestratorState) (req : VoiceRequest),
        st.currentAnalysis ≠ some req.id → voiceResolveError st req = st) ∧
    (∀ (st : OrchestratorState) (req : VoiceRequest),
        st.currentAnalysis = some req.id →
        (voiceResolveSuccess st req geminiConnectionErrorResponse).coach.progress = none) := by
  refine ⟨⟨rfl, by decide, rfl⟩, ?_, voiceResolveError_stale, ?_⟩
  · intro st req h
    unfold voiceResolveError
    rw [if_pos h]
    exact ⟨rfl, (show ("Could not analyze. Try again.".data : Str) ≠ [] by decide),
      rfl, rfl, rfl⟩
  · intro st req h
    have hmsg : trimStr geminiConnectionErrorResponse.message ≠ [] := by decide
    have hnu : (hasOptimalApproach geminiConnectionErrorResponse && !req.sawCoding) = false := by
      simp [hasOptimalApproach, geminiConnectionErrorResponse, progressAtLeast]
    have hh := voiceResolveSuccess_applied_noUnlock st req geminiConnectionErrorResponse h hmsg hnu
    rw [hh.1]
    rfl

/-- Closed witness for the amended C9: on the rejection path the concrete
displayed progress 50 is preserved and the request is released. -/
theorem judge_failure_handling_witness :
    (voiceResolveError progressedState failedRequest).coach.progress = some 50 ∧
    (voiceResolveError progressedState failedRequest).currentAnalysis = none := by
  have h := judge_failure_handling.2.1 progressedState failedRequest rfl
  refine ⟨?_, h.2.2.2.1⟩
  rw [h.2.2.1]
  decide

end LeetSpeak
